import Mathlib

/-!
Verification of the Mafia Discord bot game engine against its specification.

The repository's adapter layer (`src/commands/start.js` content bundled in
`src/game/config.js`, `src/utils/errorHandler.js` in `src/unnamed/part_000`,
`src/index.js`, `src/utils/logger.js`) is embedded directly from the source.
The core `src/game/GameSession.js` and `src/game/roles.js` modules are
required by the adapter but are not present in the repository snapshot; the
definitions standing in for them are modelled from the specification and are
marked `Modelled from the spec:` in their doc comments.

Player and channel identities are opaque strings in the source; they are
embedded as natural numbers.
-/

namespace MafiaBot

/-- The fixed role catalog of the 5-player game (`roles.js` vocabulary used by
the adapter: role strings `MAFIA`, `MAYOR`, `EXECUTIONER`, plus Town and the
Jester fallback described in the spec). -/
inductive Role
  | MAFIA
  | MAYOR
  | EXECUTIONER
  | TOWN
  | JESTER
  deriving DecidableEq, Repr

/-- Role alignment used by the win evaluator (spec §3: Mafia evil, all other
roles good-aligned). -/
inductive Alignment
  | Mafia
  | Town
  deriving DecidableEq, Repr

/-- Modelled from the spec: role identity includes an alignment (Mafia / Town)
used by the evaluator; Mafia is the only evil role. -/
def Role.alignment : Role → Alignment
  | Role.MAFIA => Alignment.Mafia
  | _ => Alignment.Town

/-- Game phases of the session state machine (spec §4.2). -/
inductive Phase
  | LOBBY
  | ROLE_ASSIGNMENT
  | DAY
  | NIGHT
  | ENDED
  deriving DecidableEq, Repr

/-- Faction-level win record (spec §4.5). -/
inductive WinType
  | MafiaWin
  | TownWin
  deriving DecidableEq, Repr

/-- `MAYOR_VOTE_MULTIPLIER` from `src/game/config.js` line 27: a revealed
Mayor's vote counts as 4. -/
def MAYOR_VOTE_MULTIPLIER : Nat := 4

/-- `EXECUTIONER_IMMUNITY` from `src/game/config.js` line 28. -/
def EXECUTIONER_IMMUNITY : Bool := true

/-- `MAX_PLAYERS` / `MIN_PLAYERS_TO_START` from `src/game/config.js`
lines 8-9: the roster size at start is exactly 5. -/
def ROSTER_SIZE : Nat := 5

/-- Modelled from the spec: the per-room `GameSession` state
(`src/game/GameSession.js` is not under `src/`; fields follow spec §3
"GameSession" and the accessors the adapter calls: roster, roles, alive set,
phase, vote map, skip set, mayor-reveal flag, night kill target, terminal
winners, day counter). -/
structure GameSession where
  hostId : Nat
  channelId : Nat
  roster : List Nat
  roles : List (Nat × Role)
  execTarget : Option Nat
  alive : List Nat
  phase : Phase
  votes : List (Nat × Nat)
  skips : List Nat
  mayorRevealed : Bool
  nightKillTarget : Option Nat
  winners : List WinType
  dayNumber : Nat
  deriving DecidableEq, Repr

/-- Role lookup for a player id (adapter: `gameSession.getPlayerRole(id)`). -/
def roleOf (s : GameSession) (pid : Nat) : Option Role :=
  s.roles.lookup pid

/-- Modelled from the spec: weight of a vote from voter `v` is
`MAYOR_VOTE_MULTIPLIER` if `v` holds Mayor and the Mayor is revealed, else 1
(spec §4.4; consistent with the adapter's display logic at
`src/game/config.js` line 616). -/
def voteWeight (s : GameSession) (voter : Nat) : Nat :=
  if roleOf s voter = some Role.MAYOR ∧ s.mayorRevealed then
    MAYOR_VOTE_MULTIPLIER
  else
    1

/-- Sum of weighted votes in the list `vs` for `target`, restricted to alive,
in-roster targets (spec §4.4: votes referencing an eliminated or removed
player are ignored). -/
def tallyAux (s : GameSession) (vs : List (Nat × Nat)) (target : Nat) : Nat :=
  match vs with
  | [] => 0
  | vt :: rest =>
    (if vt.2 = target ∧ vt.2 ∈ s.alive ∧ vt.2 ∈ s.roster then
      voteWeight s vt.1
    else 0) + tallyAux s rest target

/-- Modelled from the spec: the derived weighted tally for one candidate,
computed fresh from the vote map each time it is queried (spec §3
"VoteTally"). -/
def tallyFor (s : GameSession) (target : Nat) : Nat :=
  tallyAux s s.votes target

/-- Votes whose target is alive and in the roster. -/
def validVotes (s : GameSession) : List (Nat × Nat) :=
  s.votes.filter (fun vt => decide (vt.2 ∈ s.alive) && decide (vt.2 ∈ s.roster))

/-- Distinct candidates that received at least one valid vote. -/
def candidates (s : GameSession) : List Nat :=
  ((validVotes s).map Prod.snd).dedup

/-- The maximum accumulated weight over all candidates. -/
def maxTally (s : GameSession) : Nat :=
  ((candidates s).map (tallyFor s)).foldl max 0

/-- The candidates holding the maximum weight. -/
def topCandidates (s : GameSession) : List Nat :=
  (candidates s).filter (fun t => tallyFor s t == maxTally s)

/-- Day-end decision outcome (spec §4.4; the adapter reads
`eliminationResult.eliminated`, `.reason` with values `tie` / no-votes, and
`.tiedPlayers` at `src/game/config.js` lines 763-824). -/
inductive ElimDecision
  | eliminated (pid : Nat) (role : Role) (alignment : Alignment)
  | noVotes
  | tie (tied : List Nat)
  deriving DecidableEq, Repr

/-- Modelled from the spec: decision policy over the weighted tally
(spec §4.4): empty tally → no elimination, reason no-votes; unique maximum →
that candidate is eliminated; two or more tied for the maximum → no
elimination, reason tie, with the full tied set. -/
def decideElimination (s : GameSession) : ElimDecision :=
  match topCandidates s with
  | [] => ElimDecision.noVotes
  | [c] =>
    let r := (roleOf s c).getD Role.TOWN
    ElimDecision.eliminated c r r.alignment
  | t1 :: t2 :: rest => ElimDecision.tie (t1 :: t2 :: rest)

/-- Mark a player not-alive. -/
def removeAlive (s : GameSession) (pid : Nat) : GameSession :=
  { s with alive := s.alive.filter (fun a => a != pid) }

/-- Number of alive players holding the Mafia role. -/
def aliveMafiaCount (s : GameSession) : Nat :=
  (s.alive.filter (fun p => roleOf s p == some Role.MAFIA)).length

/-- Number of alive players not holding the Mafia role. -/
def aliveNonMafiaCount (s : GameSession) : Nat :=
  (s.alive.filter (fun p => !(roleOf s p == some Role.MAFIA))).length

/-- Modelled from the spec: win policy (spec §4.5): Town wins once no alive
player holds the Mafia role; Mafia wins once the count of alive non-Mafia
players reaches 0 (the spec's reference threshold). -/
def checkWin (s : GameSession) : Option WinType :=
  if aliveMafiaCount s = 0 then some WinType.TownWin
  else if aliveNonMafiaCount s = 0 then some WinType.MafiaWin
  else none

/-- Modelled from the spec: record a terminal win when the evaluator reports
one — phase becomes ENDED and the winners list is set (spec §4.5). Returns
the updated session and whether the game ended. -/
def recordWin (s : GameSession) : GameSession × Bool :=
  match checkWin s with
  | some w => ({ s with phase := Phase.ENDED, winners := [w] }, true)
  | none => (s, false)

/-- The player holding the Executioner role, if any. -/
def executionerId (s : GameSession) : Option Nat :=
  (s.roles.find? (fun pr => pr.2 == Role.EXECUTIONER)).map Prod.fst

/-- Modelled from the spec: the non-terminating Executioner side-win — the
eliminated player is exactly the Executioner's recorded target and the
Executioner is still alive (spec §4.4). -/
def execWinCheck (s : GameSession) (eliminatedId : Nat) : Option Nat :=
  match executionerId s with
  | none => none
  | some ex =>
    if s.execTarget = some eliminatedId ∧ ex ∈ s.alive then some ex else none

/-- Structured result of a day end (adapter fields `eliminated`,
`executionerWin`, `gameEnded` at `src/game/config.js` lines 763-824). -/
structure DayEndResult where
  elim : ElimDecision
  execWin : Option Nat
  gameEnded : Bool
  deriving DecidableEq, Repr

/-- Modelled from the spec: `processElimination` — delegates to the decision
policy on the current vote map and alive roster, applies the elimination
(mark not-alive, reveal role and alignment in the result), reports the
Executioner side-win, and always triggers a win-evaluator pass (spec §4.2,
§4.4). -/
def processElimination (s : GameSession) : GameSession × DayEndResult :=
  match decideElimination s with
  | ElimDecision.noVotes =>
    ((recordWin s).1, ⟨ElimDecision.noVotes, none, (recordWin s).2⟩)
  | ElimDecision.tie ts =>
    ((recordWin s).1, ⟨ElimDecision.tie ts, none, (recordWin s).2⟩)
  | ElimDecision.eliminated c r al =>
    let s1 := removeAlive s c
    ((recordWin s1).1,
      ⟨ElimDecision.eliminated c r al, execWinCheck s1 c, (recordWin s1).2⟩)

/-- Insert or overwrite the vote of `voter` in the vote map. -/
def upsertVote (voter target : Nat) : List (Nat × Nat) → List (Nat × Nat)
  | [] => [(voter, target)]
  | vt :: rest =>
    if vt.1 = voter then (voter, target) :: rest
    else vt :: upsertVote voter target rest

/-- Modelled from the spec: `castVote(voterId, targetId)` — requires voter
alive and in roster, target alive and in roster, phase DAY; overwrites any
prior vote by the same voter; returns a success/failure boolean rather than
throwing (spec §4.2). -/
def castVote (s : GameSession) (voter target : Nat) : GameSession × Bool :=
  if s.phase = Phase.DAY ∧ voter ∈ s.roster ∧ voter ∈ s.alive ∧
      target ∈ s.roster ∧ target ∈ s.alive then
    ({ s with votes := upsertVote voter target s.votes }, true)
  else
    (s, false)

/-- Modelled from the spec: `addSkipVote(voterId)` — marks the voter as
skipping this round; skip clears any prior vote for that voter (spec §4.2).
Accepted only during the day phase from an alive roster member (the adapter
only reaches it through the day-phase collector). -/
def addSkipVote (s : GameSession) (voter : Nat) : GameSession :=
  if s.phase = Phase.DAY ∧ voter ∈ s.roster ∧ voter ∈ s.alive then
    { s with
      votes := s.votes.filter (fun vt => vt.1 != voter),
      skips := if voter ∈ s.skips then s.skips else voter :: s.skips }
  else
    s

/-- Modelled from the spec: `revealMayor(id)` — succeeds only if `id` holds
the Mayor role and it is not already revealed; sets the reveal flag
(spec §4.2; reachable only via the day-phase reveal button). -/
def revealMayor (s : GameSession) (pid : Nat) : GameSession × Bool :=
  if s.phase = Phase.DAY ∧ roleOf s pid = some Role.MAYOR ∧
      s.mayorRevealed = false then
    ({ s with mayorRevealed := true }, true)
  else
    (s, false)

/-- Modelled from the spec: `startDayPhase()` —
ROLE_ASSIGNMENT or NIGHT → DAY; resets per-round vote and skip state; a
repeat call in any other phase is a no-op (spec §4.2). -/
def startDayPhase (s : GameSession) : GameSession :=
  if s.phase = Phase.ROLE_ASSIGNMENT ∨ s.phase = Phase.NIGHT then
    { s with phase := Phase.DAY, votes := [], skips := [],
             nightKillTarget := none }
  else
    s

/-- Modelled from the spec: `startNightPhase()` — DAY → NIGHT; a call in any
other phase is a no-op (spec §4.2). -/
def startNightPhase (s : GameSession) : GameSession :=
  if s.phase = Phase.DAY then { s with phase := Phase.NIGHT } else s

/-- Modelled from the spec: `setNightKillTarget(targetId)` records the
intended victim during the night (spec §4.2); the adapter guards the
Executioner-immunity case before this call is reached
(`src/game/config.js` lines 1049-1057). -/
def setNightKillTarget (s : GameSession) (target : Nat) : GameSession × Bool :=
  if s.phase = Phase.NIGHT ∧ target ∈ s.roster ∧ target ∈ s.alive then
    ({ s with nightKillTarget := some target }, true)
  else
    (s, false)

/-- Structured result of a night end (adapter fields `eliminated`,
`gameEnded`, `winner` at `src/game/config.js` lines 1079-1195). -/
structure NightResult where
  eliminated : Option (Nat × Role)
  gameEnded : Bool
  deriving DecidableEq, Repr

/-- Modelled from the spec: `processNightElimination()` — resolves the
recorded kill target (if any) into an elimination with the same role-reveal
semantics as day elimination, then runs the win evaluator (spec §4.2, §4.6).
No target means no elimination. The Executioner → Jester conversion trigger
is left open by the spec (§9) and no claim depends on it, so it is not
modelled. -/
def processNightElimination (s : GameSession) : GameSession × NightResult :=
  match s.nightKillTarget with
  | none => (s, ⟨none, false⟩)
  | some t =>
    let s1 := removeAlive { s with nightKillTarget := none } t
    ((recordWin s1).1,
      ⟨some (t, (roleOf s t).getD Role.TOWN), (recordWin s1).2⟩)

/-- The inbound mutation API of the session (spec §6), with the
phase-advancing triggers guarded by the current phase as in the adapter
(day end only fires from the day collector, night end after a night
action). -/
inductive GameAction
  | vote (voter target : Nat)
  | skipVote (voter : Nat)
  | reveal (pid : Nat)
  | nightKill (target : Nat)
  | dayStart
  | nightStart
  | dayEnd
  | nightEnd
  deriving DecidableEq, Repr

/-- Apply one inbound action to the session state. -/
def applyAction (s : GameSession) (a : GameAction) : GameSession :=
  match a with
  | GameAction.vote v t => (castVote s v t).1
  | GameAction.skipVote v => addSkipVote s v
  | GameAction.reveal p => (revealMayor s p).1
  | GameAction.nightKill t => (setNightKillTarget s t).1
  | GameAction.dayStart => startDayPhase s
  | GameAction.nightStart => startNightPhase s
  | GameAction.dayEnd =>
    if s.phase = Phase.DAY then (processElimination s).1 else s
  | GameAction.nightEnd =>
    if s.phase = Phase.NIGHT then (processNightElimination s).1 else s

/-- The Mafia's night choice decoded from the button custom id
(`night_skip` / `night_kill_<id>`, `src/game/config.js` lines 1035-1044). -/
inductive KillChoice
  | skip
  | kill (targetId : Nat)
  deriving DecidableEq, Repr

/-- The reply the adapter sends back to the Mafia player. -/
inductive MafiaReply
  | skippedReply
  | protectedReply
  | killSet
  | unableToTarget
  deriving DecidableEq, Repr

/-- `handleMafiaKillAction` from `src/game/config.js` lines 1032-1071: a
skip choice replies and records nothing; a kill choice on a target holding
the Executioner role replies that the target was protected and does not call
`setNightKillTarget`; otherwise the target is recorded via
`setNightKillTarget` and the reply reports success or failure. -/
def handleMafiaKillAction (s : GameSession) (choice : KillChoice) :
    GameSession × MafiaReply :=
  match choice with
  | KillChoice.skip => (s, MafiaReply.skippedReply)
  | KillChoice.kill targetId =>
    if roleOf s targetId = some Role.EXECUTIONER then
      (s, MafiaReply.protectedReply)
    else
      match setNightKillTarget s targetId with
      | (s1, true) => (s1, MafiaReply.killSet)
      | (s1, false) => (s1, MafiaReply.unableToTarget)

/-- The day-phase collector filter from `src/game/config.js` lines 464-472:
the host may interact whenever they are in the game (even if eliminated);
every other user must be in the game and alive. -/
def dayPhaseFilter (s : GameSession) (userId : Nat) : Bool :=
  if userId = s.hostId then
    decide (userId ∈ s.roster)
  else
    decide (userId ∈ s.roster) && decide (userId ∈ s.alive)

/-- The `end_day` branch of `handleDayPhaseInteraction`
(`src/game/config.js` lines 543-563): the day end is processed exactly when
the pressing user is the host. -/
def endDayAllowed (s : GameSession) (userId : Nat) : Bool :=
  userId = s.hostId

/-- Number of valid vote entries for `target` in `vs` whose voter holds the
Mayor role (used to state the retroactive effect of a Mayor reveal on an
already-computed tally). -/
def mayorVotesAux (s : GameSession) (vs : List (Nat × Nat)) (target : Nat) :
    Nat :=
  match vs with
  | [] => 0
  | vt :: rest =>
    (if vt.2 = target ∧ vt.2 ∈ s.alive ∧ vt.2 ∈ s.roster ∧
        roleOf s vt.1 = some Role.MAYOR then 1 else 0) +
      mayorVotesAux s rest target

/-- Valid Mayor votes for `target` in the current vote map. -/
def mayorVotesFor (s : GameSession) (target : Nat) : Nat :=
  mayorVotesAux s s.votes target

/-- Modelled from the spec: a fresh session created in LOBBY by a start
request (`new GameSession(hostId, channelId)` at `src/game/config.js`
line 64; `GameSession.js` is not under `src/`). -/
def newGameSession (hostId channelId : Nat) : GameSession :=
  { hostId := hostId
    channelId := channelId
    roster := [hostId]
    roles := []
    execTarget := none
    alive := []
    phase := Phase.LOBBY
    votes := []
    skips := []
    mayorRevealed := false
    nightKillTarget := none
    winners := []
    dayNumber := 1 }

/-- The module-level `activeSessions` map from `src/game/config.js` line 48:
channel id → active game session. -/
abbrev SessionsMap := List (Nat × GameSession)

/-- Outcome of a start request as the adapter reports it: the duplicate-game
rejection (the `AlreadyActiveError` failure of spec §4.1, delivered as an
ephemeral error reply) or a successful creation. -/
inductive StartOutcome
  | alreadyActive
  | created
  deriving DecidableEq, Repr

/-- The session-creation logic of `handleStartCommand` from
`src/game/config.js` lines 50-74: if the channel already has an active
session the request is rejected and nothing changes; otherwise a new session
is created and registered for the channel. -/
def handleStartCommand (r : SessionsMap) (channelId hostId : Nat) :
    SessionsMap × StartOutcome :=
  if (List.lookup channelId r).isSome then
    (r, StartOutcome.alreadyActive)
  else
    ((channelId, newGameSession hostId channelId) :: r, StartOutcome.created)

/-- The timer and collector handles a session owns, with the flag that
`cleanup()` has run (spec §4.2, §5; `GameSession.cleanup` itself is not
under `src/`). -/
structure SessionHandles where
  timers : List Nat
  collectors : List Nat
  cleaned : Bool
  deriving DecidableEq, Repr

/-- Modelled from the spec: `cleanup()` revokes every timer and listener
handle the session owns; idempotent (spec §4.2). -/
def cleanup (_h : SessionHandles) : SessionHandles :=
  { timers := [], collectors := [], cleaned := true }

/-- A timer callback fires only if its handle is still owned (not revoked);
firing a revoked handle is a no-op on the session (spec §5: any asynchronous
callback that fires after cleanup must be a guaranteed no-op). -/
def fireTimer (h : SessionHandles) (tid : Nat)
    (effect : SessionHandles → SessionHandles) : SessionHandles :=
  if tid ∈ h.timers then effect h else h

/-- The registry of per-channel session handles used by the discard paths. -/
abbrev HandleRegistry := List (Nat × SessionHandles)

/-- `endSession` from `src/game/config.js` lines 223-225: removes the
channel's session from the registry (`activeSessions.delete`), nothing
else. -/
def endSession (r : HandleRegistry) (channelId : Nat) : HandleRegistry :=
  r.filter (fun cs => cs.1 != channelId)

/-- Replace the session stored for a channel. -/
def setSession (r : HandleRegistry) (channelId : Nat) (h : SessionHandles) :
    HandleRegistry :=
  r.map (fun cs => if cs.1 = channelId then (cs.1, h) else cs)

/-- The game-end discard path of the adapter
(`src/game/config.js` lines 838-844 and 1179-1185): `announceGameEnd` calls
`gameSession.cleanup()` (line 1204), then a delayed callback removes the
session from the registry. Returns the new registry and the state the
session had when it was removed. -/
def gameEndDiscard (r : HandleRegistry) (channelId : Nat) :
    HandleRegistry × Option SessionHandles :=
  match List.lookup channelId r with
  | none => (r, none)
  | some h =>
    let h1 := cleanup h
    (endSession (setSession r channelId h1) channelId, some h1)

/-- Modelled from the spec: the explicit termination request (the `endgame`
command, not under `src/`) — destruction always revokes every owned
timer/listener handle first (spec §3 lifecycle), then removes the session
via `endSession`. -/
def terminateSession (r : HandleRegistry) (channelId : Nat) :
    HandleRegistry × Option SessionHandles :=
  match List.lookup channelId r with
  | none => (r, none)
  | some h =>
    let h1 := cleanup h
    (endSession (setSession r channelId h1) channelId, some h1)

/-- Outcome of the roster-size validation of the role assigner
(spec §4.3). -/
inductive RoleError
  | RosterSizeError
  deriving DecidableEq, Repr

/-- A complete role assignment: the role of each player and the
Executioner's recorded target. -/
structure RoleAssignment where
  roles : List (Nat × Role)
  execTargetId : Nat
  deriving DecidableEq, Repr

/-- Modelled from the spec: `RoleAssigner.assign` (`src/game/roles.js` is
not under `src/`; spec §4.3): a uniformly-random permutation of the player
ids is partitioned into Mafia×1, Mayor×1, Executioner×1 and Town×2, the
Executioner receiving a randomly chosen non-Mafia, non-self target; the
injected random source is the shuffled order plus the target pick; a roster
whose size differs from the 5-player catalog fails with RosterSizeError. -/
def assignRolesModel (playerIds shuffled : List Nat) (targetPick : Nat) :
    Except RoleError RoleAssignment :=
  if playerIds.length = ROSTER_SIZE then
    match shuffled with
    | [m, my, ex, t1, t2] =>
      let cands := [my, t1, t2]
      let tgt := (cands.get? (targetPick % cands.length)).getD my
      Except.ok
        ⟨[(m, Role.MAFIA), (my, Role.MAYOR), (ex, Role.EXECUTIONER),
          (t1, Role.TOWN), (t2, Role.TOWN)], tgt⟩
    | _ => Except.error RoleError.RosterSizeError
  else
    Except.error RoleError.RosterSizeError

/-- `ErrorHandler.withRetry` from `src/unnamed/part_000` lines 162-180,
instrumented with the number of times the operation was invoked. The
operation is embedded as a map from the attempt number (starting at 1) to
its outcome; the loop runs attempts `1..maxRetries`, returns the first
success immediately, and after the loop throws the stored last error
(`none` if no attempt ever ran). -/
def withRetryFrom (op : Nat → Except E A) (attempt fuel : Nat)
    (last : Option E) : Except (Option E) A × Nat :=
  match fuel with
  | 0 => (Except.error last, 0)
  | Nat.succ f =>
    match op attempt with
    | Except.ok a => (Except.ok a, 1)
    | Except.error e =>
      let rest := withRetryFrom op (attempt + 1) f (some e)
      (rest.1, rest.2 + 1)

/-- `ErrorHandler.withRetry(operation, maxRetries)`: run the loop from
attempt 1 with no stored error. -/
def withRetry (op : Nat → Except E A) (maxRetries : Nat) :
    Except (Option E) A × Nat :=
  withRetryFrom op 1 maxRetries none

/-- The reference seeded assignment of the spec's end-to-end scenario
(§8): player 1 Mafia, 2 Mayor, 3 Executioner, 4 and 5 Town. -/
def sampleRoles : List (Nat × Role) :=
  [(1, Role.MAFIA), (2, Role.MAYOR), (3, Role.EXECUTIONER),
   (4, Role.TOWN), (5, Role.TOWN)]

/-- A running 5-player day-phase session used to evaluate the theorems on
concrete inputs. -/
def sampleSession : GameSession :=
  { hostId := 1
    channelId := 100
    roster := [1, 2, 3, 4, 5]
    roles := sampleRoles
    execTarget := some 4
    alive := [1, 2, 3, 4, 5]
    phase := Phase.DAY
    votes := []
    skips := []
    mayorRevealed := false
    nightKillTarget := none
    winners := []
    dayNumber := 1 }

/-- Day session with votes 1→4, 5→4, 3→4 and the revealed Mayor 2→1
(the spec §8 end-to-end scenario: tally 4 = 3, tally 1 = 4). -/
def sessionUniqueMax : GameSession :=
  { sampleSession with
    votes := [(1, 4), (5, 4), (3, 4), (2, 1)], mayorRevealed := true }

/-- Day session where the unrevealed Mayor has already voted. -/
def sessionMayorVoted : GameSession :=
  { sampleSession with votes := [(2, 1), (4, 1), (5, 3)] }

/-- Night session with no kill target recorded yet. -/
def sessionNight : GameSession :=
  { sampleSession with phase := Phase.NIGHT }

/-- A session with a recorded Town win: phase ENDED, Mafia eliminated. -/
def sessionEnded : GameSession :=
  { sampleSession with
    phase := Phase.ENDED, winners := [WinType.TownWin], alive := [2, 3, 4, 5] }

/-- Day session in which both the host 1 and player 4 are eliminated. -/
def sessionHostDead : GameSession :=
  { sampleSession with alive := [2, 3, 5] }

/-- A registry holding one active session for channel 100. -/
def sampleRegistry : SessionsMap :=
  [(100, newGameSession 1 100)]

/-- Handle registry with one uncleaned session for channel 5. -/
def sampleHandles : HandleRegistry :=
  [(5, ⟨[1, 2], [3], false⟩)]

/-- A concrete timer effect used to evaluate the post-cleanup no-op
property. -/
def sampleEffect (h : SessionHandles) : SessionHandles :=
  { h with timers := 9 :: h.timers }

/-- An operation that fails on every attempt, with the attempt number as the
error value. -/
def opAllFail : Nat → Except Nat Nat :=
  fun k => Except.error k

/-- An operation that fails on attempt 1 and succeeds on attempt 2. -/
def opSecondTry : Nat → Except Nat Nat :=
  fun k => if k = 2 then Except.ok 7 else Except.error k

theorem recordWin_alive (s : GameSession) : ((recordWin s).1).alive = s.alive := by
  unfold recordWin
  cases checkWin s <;> simp

theorem recordWin_phase_of_ended (s : GameSession)
    (h : (recordWin s).2 = true) : ((recordWin s).1).phase = Phase.ENDED := by
  unfold recordWin at h ⊢
  rcases hck : checkWin s with _ | w <;> simp [hck] at h ⊢

/-- C1: at day end, `processElimination` decides over the weighted tally
restricted to alive, in-roster targets: with no valid votes it reports no
elimination for the no-votes reason; with a unique maximum-weight candidate
that candidate is eliminated (marked not-alive, role and alignment revealed
in the result); with two or more candidates tied for the maximum it reports
no elimination for the tie reason together with the full tied set. -/
theorem processElimination_decision (s : GameSession) :
    (validVotes s = [] →
      (processElimination s).2.elim = ElimDecision.noVotes) ∧
    (∀ c, topCandidates s = [c] →
      (processElimination s).2.elim =
        ElimDecision.eliminated c ((roleOf s c).getD Role.TOWN)
          (((roleOf s c).getD Role.TOWN).alignment) ∧
      c ∉ ((processElimination s).1).alive) ∧
    (∀ t1 t2 rest, topCandidates s = t1 :: t2 :: rest →
      (processElimination s).2.elim = ElimDecision.tie (t1 :: t2 :: rest)) := by
  refine ⟨?_, ?_, ?_⟩
  · intro hv
    have hc : candidates s = [] := by simp [candidates, hv]
    have ht : topCandidates s = [] := by simp [topCandidates, hc]
    have hd : decideElimination s = ElimDecision.noVotes := by
      simp [decideElimination, ht]
    simp [processElimination, hd]
  · intro c ht
    have hd : decideElimination s =
        ElimDecision.eliminated c ((roleOf s c).getD Role.TOWN)
          (((roleOf s c).getD Role.TOWN).alignment) := by
      simp [decideElimination, ht]
    constructor
    · simp [processElimination, hd]
    · have halive : ((processElimination s).1).alive =
          ((removeAlive s c)).alive := by
        simp [processElimination, hd, recordWin_alive]
      rw [halive]
      simp [removeAlive]
  · intro t1 t2 rest ht
    have hd : decideElimination s = ElimDecision.tie (t1 :: t2 :: rest) := by
      simp [decideElimination, ht]
    simp [processElimination, hd]

/-- Witness for C1: the spec §8 end-to-end scenario — votes 1→4, 5→4, 3→4,
revealed Mayor 2→1 give tally 4 = 3 and tally 1 = 4, so the Mafia player 1
is the unique maximum and is eliminated with role and alignment revealed. -/
theorem processElimination_decision_witness :
    (processElimination sessionUniqueMax).2.elim =
      ElimDecision.eliminated 1 Role.MAFIA Alignment.Mafia ∧
    1 ∉ ((processElimination sessionUniqueMax).1).alive :=
  (processElimination_decision sessionUniqueMax).2.1 1 (by decide)

/-- C9: the day-phase collector filter admits a user only if they are in the
roster and either alive or the host: an eliminated non-host roster member is
filtered out before any vote/skip/reveal/end-day handler runs, while the
host passes the filter even when eliminated and may still end the day. -/
theorem dayPhaseFilter_spec (s : GameSession) (u : Nat) :
    (u ∈ s.roster → u ∉ s.alive → u ≠ s.hostId →
      dayPhaseFilter s u = false) ∧
    (s.hostId ∈ s.roster →
      dayPhaseFilter s s.hostId = true ∧ endDayAllowed s s.hostId = true) := by
  constructor
  · intro hr ha hh
    simp [dayPhaseFilter, hh, hr, ha]
  · intro hr
    simp [dayPhaseFilter, endDayAllowed, hr]

/-- Witness for C9: with host 1 and player 4 both eliminated, the non-host 4
is filtered out while the host 1 still passes and may end the day. -/
theorem dayPhaseFilter_spec_witness :
    dayPhaseFilter sessionHostDead 4 = false ∧
    (dayPhaseFilter sessionHostDead 1 = true ∧
      endDayAllowed sessionHostDead 1 = true) :=
  ⟨(dayPhaseFilter_spec sessionHostDead 4).1 (by decide) (by decide)
      (by decide),
   (dayPhaseFilter_spec sessionHostDead 1).2 (by decide)⟩

/-- C8: a start request for a channel that already has an active session is
rejected (the spec's AlreadyActiveError failure) and leaves the registry
unchanged: no session is created and the existing session for the channel is
still registered, unmodified. -/
theorem handleStartCommand_alreadyActive (r : SessionsMap)
    (channelId hostId : Nat) (sess : GameSession)
    (hs : List.lookup channelId r = some sess) :
    handleStartCommand r channelId hostId = (r, StartOutcome.alreadyActive) ∧
    List.lookup channelId (handleStartCommand r channelId hostId).1 =
      some sess := by
  have hsome : (List.lookup channelId r).isSome = true := by simp [hs]
  constructor
  · simp [handleStartCommand, hsome]
  · simp [handleStartCommand, hsome, hs]

/-- Witness for C8: channel 100 already holds a session, so a second start
request for it is rejected and the registry still maps 100 to the original
session. -/
theorem handleStartCommand_alreadyActive_witness :
    handleStartCommand sampleRegistry 100 2 =
      (sampleRegistry, StartOutcome.alreadyActive) ∧
    List.lookup 100 (handleStartCommand sampleRegistry 100 2).1 =
      some (newGameSession 1 100) :=
  handleStartCommand_alreadyActive sampleRegistry 100 2
    (newGameSession 1 100) (by decide)

/-- C4: when the Mafia's chosen kill target holds the Executioner role the
kill action is accepted (the adapter replies that the target was protected)
but no kill target is recorded, so the night resolution yields no
elimination and leaves the alive set — in particular the Executioner —
untouched; a skip choice likewise leads to no night elimination. -/
theorem mafiaKill_executioner_immune (s : GameSession) (target : Nat)
    (hrole : roleOf s target = some Role.EXECUTIONER)
    (hnk : s.nightKillTarget = none) :
    handleMafiaKillAction s (KillChoice.kill target) =
      (s, MafiaReply.protectedReply) ∧
    (processNightElimination
      (handleMafiaKillAction s (KillChoice.kill target)).1).2.eliminated =
        none ∧
    (processNightElimination
      (handleMafiaKillAction s (KillChoice.kill target)).1).1.alive =
        s.alive ∧
    handleMafiaKillAction s KillChoice.skip = (s, MafiaReply.skippedReply) ∧
    (processNightElimination
      (handleMafiaKillAction s KillChoice.skip).1).2.eliminated = none := by
  have haction : handleMafiaKillAction s (KillChoice.kill target) =
      (s, MafiaReply.protectedReply) := by
    simp [handleMafiaKillAction, hrole]
  refine ⟨haction, ?_, ?_, rfl, ?_⟩
  · rw [haction]
    simp [processNightElimination, hnk]
  · rw [haction]
    simp [processNightElimination, hnk]
  · show (processNightElimination s).2.eliminated = none
    simp [processNightElimination, hnk]

/-- Witness for C4: in the sample night session the Mafia targets the
Executioner (player 3); the action is accepted with the protected reply and
the night resolves with no elimination. -/
theorem mafiaKill_executioner_immune_witness :
    handleMafiaKillAction sessionNight (KillChoice.kill 3) =
      (sessionNight, MafiaReply.protectedReply) ∧
    (processNightElimination
      (handleMafiaKillAction sessionNight (KillChoice.kill 3)).1).2.eliminated =
        none ∧
    (processNightElimination
      (handleMafiaKillAction sessionNight (KillChoice.kill 3)).1).1.alive =
        sessionNight.alive ∧
    handleMafiaKillAction sessionNight KillChoice.skip =
      (sessionNight, MafiaReply.skippedReply) ∧
    (processNightElimination
      (handleMafiaKillAction sessionNight KillChoice.skip).1).2.eliminated =
        none :=
  mafiaKill_executioner_immune sessionNight 3 (by decide) (by decide)

/-- C5: a recorded Mafia/Town win is terminal: whenever a day or night
resolution reports the game ended, the resulting phase is ENDED; and in an
ENDED session every inbound action — votes, skips, reveals, night kills,
phase starts and phase ends — is a no-op (so the winners list and phase
never change again) and every later `castVote` returns failure. -/
theorem session_terminal (s : GameSession) :
    ((processElimination s).2.gameEnded = true →
      ((processElimination s).1).phase = Phase.ENDED) ∧
    ((processNightElimination s).2.gameEnded = true →
      ((processNightElimination s).1).phase = Phase.ENDED) ∧
    (s.phase = Phase.ENDED →
      (∀ a, applyAction s a = s) ∧ ∀ v t, (castVote s v t).2 = false) := by
  refine ⟨?_, ?_, ?_⟩
  · intro hg
    rcases hd : decideElimination s with ⟨c, r, al⟩ | _ | ts <;>
      simp [processElimination, hd] at hg ⊢ <;>
      exact recordWin_phase_of_ended _ hg
  · intro hg
    rcases hnk : s.nightKillTarget with _ | t <;>
      simp [processNightElimination, hnk] at hg ⊢
    exact recordWin_phase_of_ended _ hg
  · intro hend
    constructor
    · intro a
      cases a <;>
        simp [applyAction, castVote, addSkipVote, revealMayor,
          setNightKillTarget, startDayPhase, startNightPhase, hend]
    · intro v t
      simp [castVote, hend]

/-- Witness for C5: a day end on the spec §8 scenario eliminates the Mafia
and records the Town win with phase ENDED; in the resulting ENDED session a
vote action is a no-op and `castVote` returns false. -/
theorem session_terminal_witness :
    ((processElimination sessionUniqueMax).1).phase = Phase.ENDED ∧
    applyAction sessionEnded (GameAction.vote 2 3) = sessionEnded ∧
    (castVote sessionEnded 2 3).2 = false :=
  ⟨(session_terminal sessionUniqueMax).1 (by decide),
   ((session_terminal sessionEnded).2.2 (by decide)).1 (GameAction.vote 2 3),
   ((session_terminal sessionEnded).2.2 (by decide)).2 2 3⟩

theorem lookup_upsertVote (v t : Nat) (vs : List (Nat × Nat)) :
    List.lookup v (upsertVote v t vs) = some t := by
  induction vs with
  | nil => simp [upsertVote, List.lookup]
  | cons vt rest ih =>
    obtain ⟨k, b⟩ := vt
    by_cases hk : k = v
    · simp [upsertVote, hk, List.lookup]
    · simp only [upsertVote]
      rw [if_neg (by simpa using hk)]
      have hvk : (v == k) = false := by
        simp [Ne.symm hk]
      simp [List.lookup, hvk, ih]

theorem mem_upsertVote_of_key (v t : Nat) (vs : List (Nat × Nat))
    (hnd : (vs.map Prod.fst).Nodup) :
    ∀ p ∈ upsertVote v t vs, p.1 = v → p = (v, t) := by
  induction vs with
  | nil =>
    intro p hp _
    simpa [upsertVote] using hp
  | cons vt rest ih =>
    obtain ⟨k, b⟩ := vt
    simp only [List.map_cons, List.nodup_cons] at hnd
    intro p hp hpv
    by_cases hk : k = v
    · subst hk
      simp only [upsertVote, if_pos rfl] at hp
      rcases List.mem_cons.mp hp with h | h
      · exact h
      · exact absurd (hpv ▸ List.mem_map_of_mem Prod.fst h) hnd.1
    · simp only [upsertVote] at hp
      rw [if_neg (by simpa using hk)] at hp
      rcases List.mem_cons.mp hp with h | h
      · exact absurd (hpv ▸ congrArg Prod.fst h).symm hk
      · exact ih hnd.2 p h hpv

theorem mem_keys_upsertVote (v t x : Nat) (vs : List (Nat × Nat))
    (hx : x ∈ (upsertVote v t vs).map Prod.fst) :
    x ∈ vs.map Prod.fst ∨ x = v := by
  induction vs with
  | nil =>
    right
    simpa [upsertVote] using hx
  | cons vt rest ih =>
    obtain ⟨k, b⟩ := vt
    by_cases hk : k = v
    · left
      have heq : (upsertVote v t ((k, b) :: rest)).map Prod.fst =
          ((k, b) :: rest).map Prod.fst := by
        simp [upsertVote, hk]
      rwa [heq] at hx
    · have heq : upsertVote v t ((k, b) :: rest) =
          (k, b) :: upsertVote v t rest := by
        simp [upsertVote, hk]
      rw [heq] at hx
      simp only [List.map_cons, List.mem_cons] at hx ⊢
      rcases hx with h | h
      · left
        left
        exact h
      · rcases ih h with h2 | h2
        · left
          right
          exact h2
        · right
          exact h2

theorem nodup_keys_upsertVote (v t : Nat) (vs : List (Nat × Nat))
    (hnd : (vs.map Prod.fst).Nodup) :
    ((upsertVote v t vs).map Prod.fst).Nodup := by
  induction vs with
  | nil => simp [upsertVote]
  | cons vt rest ih =>
    obtain ⟨k, b⟩ := vt
    simp only [List.map_cons, List.nodup_cons] at hnd
    by_cases hk : k = v
    · have heq : upsertVote v t ((k, b) :: rest) = (v, t) :: rest := by
        simp [upsertVote, hk]
      rw [heq]
      simp only [List.map_cons, List.nodup_cons]
      rw [hk] at hnd
      exact hnd
    · have heq : upsertVote v t ((k, b) :: rest) =
          (k, b) :: upsertVote v t rest := by
        simp [upsertVote, hk]
      rw [heq]
      simp only [List.map_cons, List.nodup_cons]
      refine ⟨?_, ih hnd.2⟩
      intro hmem
      rcases mem_keys_upsertVote v t k rest hmem with h | h
      · exact hnd.1 h
      · exact hk h

/-- C7: `castVote` is overwriting — an alive, in-roster voter who casts a
day-phase vote and then a second one holds exactly the latest vote in the
vote map (the map used to compute every tally), both calls report success,
and a rejected vote returns the failure boolean with the session unchanged
rather than throwing. -/
theorem castVote_overwrites (s : GameSession) (v t1 t2 : Nat)
    (hnd : (s.votes.map Prod.fst).Nodup)
    (hphase : s.phase = Phase.DAY)
    (hvr : v ∈ s.roster) (hva : v ∈ s.alive)
    (h1r : t1 ∈ s.roster) (h1a : t1 ∈ s.alive)
    (h2r : t2 ∈ s.roster) (h2a : t2 ∈ s.alive) :
    (castVote s v t1).2 = true ∧
    (castVote (castVote s v t1).1 v t2).2 = true ∧
    List.lookup v ((castVote (castVote s v t1).1 v t2).1).votes = some t2 ∧
    (∀ p ∈ ((castVote (castVote s v t1).1 v t2).1).votes,
      p.1 = v → p = (v, t2)) ∧
    (∀ s0 voter target,
      ¬(s0.phase = Phase.DAY ∧ voter ∈ s0.roster ∧ voter ∈ s0.alive ∧
        target ∈ s0.roster ∧ target ∈ s0.alive) →
      castVote s0 voter target = (s0, false)) := by
  have hstep1 : castVote s v t1 =
      ({ s with votes := upsertVote v t1 s.votes }, true) := by
    simp [castVote, hphase, hvr, hva, h1r, h1a]
  have hstep2 : castVote { s with votes := upsertVote v t1 s.votes } v t2 =
      ({ s with votes := upsertVote v t2 (upsertVote v t1 s.votes) },
        true) := by
    simp [castVote, hphase, hvr, hva, h2r, h2a]
  have hnd1 : ((upsertVote v t1 s.votes).map Prod.fst).Nodup :=
    nodup_keys_upsertVote v t1 s.votes hnd
  refine ⟨by simp [hstep1], ?_, ?_, ?_, ?_⟩
  · rw [hstep1]
    simp [hstep2]
  · rw [hstep1]
    simp only [hstep2]
    exact lookup_upsertVote v t2 (upsertVote v t1 s.votes)
  · rw [hstep1]
    simp only [hstep2]
    exact mem_upsertVote_of_key v t2 (upsertVote v t1 s.votes) hnd1
  · intro s0 voter target hno
    simp [castVote, hno]

/-- Witness for C7: player 3 votes for 4 and then for 5; only the vote for 5
remains, and a vote in the ENDED session is rejected with a failure boolean
and no state change. -/
theorem castVote_overwrites_witness :
    (castVote sampleSession 3 4).2 = true ∧
    (castVote (castVote sampleSession 3 4).1 3 5).2 = true ∧
    List.lookup 3 ((castVote (castVote sampleSession 3 4).1 3 5).1).votes =
      some 5 ∧
    castVote sessionEnded 2 3 = (sessionEnded, false) := by
  have h := castVote_overwrites sampleSession 3 4 5 (by decide) (by decide)
    (by decide) (by decide) (by decide) (by decide) (by decide) (by decide)
  exact ⟨h.1, h.2.1, h.2.2.1, h.2.2.2.2 sessionEnded 2 3 (by decide)⟩

theorem tallyAux_congr_reveal (s s' : GameSession)
    (hroles : s'.roles = s.roles) (halive : s'.alive = s.alive)
    (hroster : s'.roster = s.roster)
    (hrev : s.mayorRevealed = false) (hrev' : s'.mayorRevealed = true) :
    ∀ vs t, tallyAux s' vs t =
      tallyAux s vs t + (MAYOR_VOTE_MULTIPLIER - 1) * mayorVotesAux s vs t := by
  have hro : ∀ p, roleOf s' p = roleOf s p := fun p => by
    simp [roleOf, hroles]
  have hw1 : ∀ p, voteWeight s p = 1 := fun p => by
    simp [voteWeight, hrev]
  have hw' : ∀ p, voteWeight s' p =
      if roleOf s p = some Role.MAYOR then MAYOR_VOTE_MULTIPLIER else 1 :=
    fun p => by
      by_cases hm : roleOf s p = some Role.MAYOR
      · simp [voteWeight, hro, hrev', hm]
      · simp [voteWeight, hro, hrev', hm]
  intro vs t
  induction vs with
  | nil => simp [tallyAux, mayorVotesAux]
  | cons vt rest ih =>
    simp only [tallyAux, mayorVotesAux, halive, hroster]
    rw [ih]
    by_cases hc : vt.2 = t ∧ vt.2 ∈ s.alive ∧ vt.2 ∈ s.roster
    · rw [if_pos hc, if_pos hc, hw', hw1]
      by_cases hm : roleOf s vt.1 = some Role.MAYOR
      · rw [if_pos hm, if_pos ⟨hc.1, hc.2.1, hc.2.2, hm⟩]
        simp [MAYOR_VOTE_MULTIPLIER]
        omega
      · rw [if_neg hm, if_neg (fun hcm => hm hcm.2.2.2)]
        simp only [MAYOR_VOTE_MULTIPLIER, Nat.zero_add]
        omega
    · rw [if_neg hc, if_neg hc,
        if_neg (fun hcm => hc ⟨hcm.1, hcm.2.1, hcm.2.2.1⟩)]
      simp only [MAYOR_VOTE_MULTIPLIER, Nat.zero_add]

/-- C3: a vote's weight is `MAYOR_VOTE_MULTIPLIER` (4) exactly for the
revealed Mayor, else 1; a successful `revealMayor` leaves the vote map
untouched and raises the Mayor's weight from 1 to 4, so every subsequent
tally — including of a vote the Mayor had already cast that round — counts
each existing valid Mayor vote at weight 4 instead of 1. -/
theorem revealMayor_retroactive (s : GameSession) (m t : Nat)
    (hphase : s.phase = Phase.DAY) (hm : roleOf s m = some Role.MAYOR)
    (hrev : s.mayorRevealed = false) :
    (revealMayor s m).2 = true ∧
    ((revealMayor s m).1).votes = s.votes ∧
    voteWeight s m = 1 ∧
    voteWeight (revealMayor s m).1 m = MAYOR_VOTE_MULTIPLIER ∧
    tallyFor (revealMayor s m).1 t =
      tallyFor s t + (MAYOR_VOTE_MULTIPLIER - 1) * mayorVotesFor s t := by
  have hs' : (revealMayor s m).1 = { s with mayorRevealed := true } := by
    simp [revealMayor, hphase, hm, hrev]
  refine ⟨by simp [revealMayor, hphase, hm, hrev], by rw [hs'],
    by simp [voteWeight, hrev], ?_, ?_⟩
  · rw [hs']
    have hcond : roleOf ({ s with mayorRevealed := true } : GameSession) m =
        some Role.MAYOR := hm
    simp [voteWeight, hcond]
  · rw [hs']
    exact tallyAux_congr_reveal s { s with mayorRevealed := true }
      rfl rfl rfl hrev rfl s.votes t

/-- Witness for C3: Mayor 2 has already voted for player 1 (tally 1 = 2
with 4→1 also voting); after revealing, the same vote map yields
tally 1 = 2 + 3·1 = 5. -/
theorem revealMayor_retroactive_witness :
    (revealMayor sessionMayorVoted 2).2 = true ∧
    ((revealMayor sessionMayorVoted 2).1).votes = sessionMayorVoted.votes ∧
    voteWeight sessionMayorVoted 2 = 1 ∧
    voteWeight (revealMayor sessionMayorVoted 2).1 2 =
      MAYOR_VOTE_MULTIPLIER ∧
    tallyFor (revealMayor sessionMayorVoted 2).1 1 =
      tallyFor sessionMayorVoted 1 +
        (MAYOR_VOTE_MULTIPLIER - 1) * mayorVotesFor sessionMayorVoted 1 :=
  revealMayor_retroactive sessionMayorVoted 2 1 (by decide) (by decide)
    (by decide)

theorem lookup_endSession (r : HandleRegistry) (c : Nat) :
    List.lookup c (endSession r c) = none := by
  induction r with
  | nil => rfl
  | cons kh rest ih =>
    obtain ⟨k, h⟩ := kh
    by_cases hkc : k = c
    · have hb : (k != c) = false := by simp [hkc]
      have heq : endSession ((k, h) :: rest) c = endSession rest c := by
        simp [endSession, List.filter, hb]
      rw [heq]
      exact ih
    · have hb : (k != c) = true := by simpa using hkc
      have heq : endSession ((k, h) :: rest) c =
          (k, h) :: endSession rest c := by
        simp [endSession, List.filter, hb]
      rw [heq]
      have hck : (c == k) = false := by
        simp [Ne.symm hkc]
      simp [List.lookup, hck, ih]

/-- C6: every modelled discard of a session — the game-end flow, in which
`announceGameEnd` runs `cleanup()` before the delayed registry removal, and
the spec's explicit termination — removes a session on which `cleanup()`
has already run (all timers and collectors revoked), after which the
session is no longer registered; `cleanup()` is idempotent; and a timer
that fires after cleanup finds its handle revoked and is a no-op on the
session. -/
theorem discard_cleanup_spec (r : HandleRegistry) (c : Nat) :
    (∀ h, (gameEndDiscard r c).2 = some h →
      h.cleaned = true ∧ h.timers = [] ∧ h.collectors = []) ∧
    (∀ h, (terminateSession r c).2 = some h →
      h.cleaned = true ∧ h.timers = [] ∧ h.collectors = []) ∧
    List.lookup c (gameEndDiscard r c).1 = none ∧
    List.lookup c (terminateSession r c).1 = none ∧
    (∀ h, cleanup (cleanup h) = cleanup h) ∧
    (∀ h tid eff, fireTimer (cleanup h) tid eff = cleanup h) := by
  refine ⟨?_, ?_, ?_, ?_, fun h => rfl, ?_⟩
  · intro h hsome
    rcases hl : List.lookup c r with _ | h0 <;>
      simp [gameEndDiscard, hl, cleanup] at hsome
    rw [← hsome]
    exact ⟨rfl, rfl, rfl⟩
  · intro h hsome
    rcases hl : List.lookup c r with _ | h0 <;>
      simp [terminateSession, hl, cleanup] at hsome
    rw [← hsome]
    exact ⟨rfl, rfl, rfl⟩
  · rcases hl : List.lookup c r with _ | h0
    · simp [gameEndDiscard, hl]
    · simp only [gameEndDiscard, hl]
      exact lookup_endSession _ c
  · rcases hl : List.lookup c r with _ | h0
    · simp [terminateSession, hl]
    · simp only [terminateSession, hl]
      exact lookup_endSession _ c
  · intro h tid eff
    simp [fireTimer, cleanup]

/-- Witness for C6: discarding the uncleaned session of channel 5 through
the game-end flow removes it only after cleanup, the channel is gone from
the registry, and a cleaned session absorbs a repeated cleanup and a stale
timer callback. -/
theorem discard_cleanup_spec_witness :
    ((gameEndDiscard sampleHandles 5).2 = some ⟨[], [], true⟩ →
      SessionHandles.cleaned ⟨[], [], true⟩ = true ∧
      SessionHandles.timers (⟨[], [], true⟩ : SessionHandles) = [] ∧
      SessionHandles.collectors (⟨[], [], true⟩ : SessionHandles) = []) ∧
    List.lookup 5 (gameEndDiscard sampleHandles 5).1 = none ∧
    cleanup (cleanup ⟨[1, 2], [3], false⟩) = cleanup ⟨[1, 2], [3], false⟩ ∧
    fireTimer (cleanup ⟨[1, 2], [3], false⟩) 1 sampleEffect =
      cleanup ⟨[1, 2], [3], false⟩ := by
  have h := discard_cleanup_spec sampleHandles 5
  exact ⟨h.1 ⟨[], [], true⟩, h.2.2.1, h.2.2.2.2.1 ⟨[1, 2], [3], false⟩,
    h.2.2.2.2.2 ⟨[1, 2], [3], false⟩ 1 sampleEffect⟩

theorem withRetryFrom_count_le {E A : Type} (op : Nat → Except E A) :
    ∀ fuel attempt last, (withRetryFrom op attempt fuel last).2 ≤ fuel := by
  intro fuel
  induction fuel with
  | zero =>
    intro attempt last
    simp [withRetryFrom]
  | succ f ih =>
    intro attempt last
    rcases hop : op attempt with e | a
    · have hrec := ih (attempt + 1) (some e)
      simp only [withRetryFrom, hop]
      omega
    · simp only [withRetryFrom, hop]
      omega

theorem withRetryFrom_first_ok {E A : Type} (op : Nat → Except E A) :
    ∀ fuel attempt last k a, attempt ≤ k → k < attempt + fuel →
      op k = Except.ok a →
      (∀ j, attempt ≤ j → j < k → (op j).isOk = false) →
      withRetryFrom op attempt fuel last =
        (Except.ok a, k + 1 - attempt) := by
  intro fuel
  induction fuel with
  | zero =>
    intro attempt last k a hak hlt _ _
    omega
  | succ f ih =>
    intro attempt last k a hak hlt hok hfail
    by_cases hek : attempt = k
    · subst hek
      have harg : attempt + 1 - attempt = 1 := by omega
      simp [withRetryFrom, hok, harg]
    · have hlt2 : attempt < k := Nat.lt_of_le_of_ne hak hek
      have hfa : (op attempt).isOk = false :=
        hfail attempt (Nat.le_refl attempt) hlt2
      rcases hop : op attempt with e | a0
      · have hrec := ih (attempt + 1) (some e) k a hlt2
          (by omega) hok (fun j hj1 hj2 => hfail j (by omega) hj2)
        have harg : k + 1 - (attempt + 1) + 1 = k + 1 - attempt := by omega
        simp [withRetryFrom, hop, hrec, harg]
        omega
      · rw [hop] at hfa
        simp [Except.isOk, Except.toBool] at hfa

theorem withRetryFrom_all_fail {E A : Type} (op : Nat → Except E A)
    (errs : Nat → E) :
    ∀ fuel attempt last, 1 ≤ fuel →
      (∀ j, attempt ≤ j → j < attempt + fuel →
        op j = Except.error (errs j)) →
      withRetryFrom op attempt fuel last =
        (Except.error (some (errs (attempt + fuel - 1))), fuel) := by
  intro fuel
  induction fuel with
  | zero =>
    intro attempt last h1 _
    omega
  | succ f ih =>
    intro attempt last _ hall
    have hop : op attempt = Except.error (errs attempt) :=
      hall attempt (Nat.le_refl attempt) (by omega)
    rcases Nat.eq_zero_or_pos f with hf | hf
    · subst hf
      have harg : attempt + 1 - 1 = attempt := by omega
      simp [withRetryFrom, hop, harg]
    · have hrec := ih (attempt + 1) (some (errs attempt)) hf
        (fun j hj1 hj2 => hall j (by omega) (by omega))
      have harg : attempt + 1 + f - 1 = attempt + (f + 1) - 1 := by omega
      rw [harg] at hrec
      simp [withRetryFrom, hop, hrec]

/-- C10: for every operation and `maxRetries ≥ 1`, `ErrorHandler.withRetry`
invokes the operation at most `maxRetries` times; if attempt `k ≤ maxRetries`
is the first to succeed, it returns that result having made exactly `k`
invocations (no further attempts); and if every attempt throws, it throws
the error of the final attempt after exactly `maxRetries` invocations. -/
theorem withRetry_spec {E A : Type} (op : Nat → Except E A) (m : Nat)
    (hm : 1 ≤ m) :
    (withRetry op m).2 ≤ m ∧
    (∀ k a, 1 ≤ k → k ≤ m → op k = Except.ok a →
      (∀ j, 1 ≤ j → j < k → (op j).isOk = false) →
      withRetry op m = (Except.ok a, k)) ∧
    (∀ errs : Nat → E,
      (∀ j, 1 ≤ j → j ≤ m → op j = Except.error (errs j)) →
      withRetry op m = (Except.error (some (errs m)), m)) := by
  refine ⟨withRetryFrom_count_le op m 1 none, ?_, ?_⟩
  · intro k a hk1 hkm hok hfail
    have h := withRetryFrom_first_ok op m 1 none k a hk1 (by omega) hok
      (fun j hj1 hj2 => hfail j hj1 hj2)
    rw [withRetry, h]
    have : k + 1 - 1 = k := by omega
    rw [this]
  · intro errs hall
    have h := withRetryFrom_all_fail op errs m 1 none hm
      (fun j hj1 hj2 => hall j hj1 (by omega))
    rw [withRetry, h]
    have : 1 + m - 1 = m := by omega
    rw [this]

/-- Witness for C10: an operation failing on every attempt with its attempt
number as the error: two allowed attempts end with the error of attempt 2
after exactly 2 invocations; and an operation succeeding on attempt 2
returns that success after exactly 2 of 3 allowed invocations. -/
theorem withRetry_spec_witness :
    withRetry opAllFail 2 = (Except.error (some 2), 2) ∧
    withRetry opSecondTry 3 = (Except.ok 7, 2) := by
  constructor
  · exact (withRetry_spec opAllFail 2 (by decide)).2.2 (fun j => j)
      (fun j hj1 hj2 => rfl)
  · refine (withRetry_spec opSecondTry 3 (by decide)).2.1 2 7 (by decide)
      (by decide) rfl ?_
    intro j hj1 hj2
    have hj : j = 1 := by omega
    rw [hj]
    rfl

/-- C2: for a duplicate-free ordered list of exactly 5 player ids, the role
assigner (fed its injected random source: a shuffle of the ids and a target
pick) returns an assignment in which every input player appears exactly
once, with exactly one Mafia, one Mayor, one Executioner whose recorded
target is a non-self, non-Mafia player (it holds Mayor or Town), and the
remaining two players Town; an input list whose length is not 5 fails with
RosterSizeError. -/
theorem assignRoles_spec (playerIds shuffled : List Nat) (pick : Nat)
    (hnd : playerIds.Nodup) (hperm : shuffled.Perm playerIds)
    (hlen : playerIds.length = ROSTER_SIZE) :
    (∃ asg, assignRolesModel playerIds shuffled pick = Except.ok asg ∧
      (asg.roles.map Prod.fst).Perm playerIds ∧
      (∀ p ∈ playerIds, List.count p (asg.roles.map Prod.fst) = 1) ∧
      (asg.roles.filter (fun pr => pr.2 == Role.MAFIA)).length = 1 ∧
      (asg.roles.filter (fun pr => pr.2 == Role.MAYOR)).length = 1 ∧
      (asg.roles.filter (fun pr => pr.2 == Role.EXECUTIONER)).length = 1 ∧
      (asg.roles.filter (fun pr => pr.2 == Role.TOWN)).length = 2 ∧
      (asg.roles.lookup asg.execTargetId = some Role.MAYOR ∨
        asg.roles.lookup asg.execTargetId = some Role.TOWN)) ∧
    (∀ pids sh pk, pids.length ≠ ROSTER_SIZE →
      assignRolesModel pids sh pk = Except.error RoleError.RosterSizeError) := by
  constructor
  · have hlen5 : shuffled.length = 5 := by
      rw [hperm.length_eq]
      exact hlen
    have hndSh : shuffled.Nodup := hperm.nodup_iff.mpr hnd
    rcases shuffled with _ | ⟨m, rest1⟩
    · simp at hlen5
    rcases rest1 with _ | ⟨my, rest2⟩
    · simp at hlen5
    rcases rest2 with _ | ⟨ex, rest3⟩
    · simp at hlen5
    rcases rest3 with _ | ⟨t1, rest4⟩
    · simp at hlen5
    rcases rest4 with _ | ⟨t2, rest5⟩
    · simp at hlen5
    rcases rest5 with _ | ⟨x, rest6⟩
    · clear hlen5
      simp only [List.nodup_cons, List.mem_cons, List.not_mem_nil, or_false,
        not_or] at hndSh
      obtain ⟨⟨hm_my, hm_ex, hm_t1, hm_t2⟩, ⟨hmy_ex, hmy_t1, hmy_t2⟩,
        ⟨hex_t1, hex_t2⟩, ht1t2, -⟩ := hndSh
      refine ⟨⟨[(m, Role.MAFIA), (my, Role.MAYOR), (ex, Role.EXECUTIONER),
        (t1, Role.TOWN), (t2, Role.TOWN)],
        (([my, t1, t2].get? (pick % 3)).getD my)⟩, ?_, ?_, ?_, rfl, rfl,
        rfl, rfl, ?_⟩
      · simp [assignRolesModel, hlen]
      · exact hperm
      · intro p hp
        have hc := hperm.count_eq p
        rw [show ((([(m, Role.MAFIA), (my, Role.MAYOR),
            (ex, Role.EXECUTIONER), (t1, Role.TOWN),
            (t2, Role.TOWN)]).map Prod.fst) = [m, my, ex, t1, t2]) from rfl]
        rw [hc]
        exact List.count_eq_one_of_mem hnd hp
      · have hbmy_m : (my == m) = false :=
          beq_eq_false_iff_ne.mpr (Ne.symm hm_my)
        have hbt1_m : (t1 == m) = false :=
          beq_eq_false_iff_ne.mpr (Ne.symm hm_t1)
        have hbt1_my : (t1 == my) = false :=
          beq_eq_false_iff_ne.mpr (Ne.symm hmy_t1)
        have hbt1_ex : (t1 == ex) = false :=
          beq_eq_false_iff_ne.mpr (Ne.symm hex_t1)
        have hbt2_m : (t2 == m) = false :=
          beq_eq_false_iff_ne.mpr (Ne.symm hm_t2)
        have hbt2_my : (t2 == my) = false :=
          beq_eq_false_iff_ne.mpr (Ne.symm hmy_t2)
        have hbt2_ex : (t2 == ex) = false :=
          beq_eq_false_iff_ne.mpr (Ne.symm hex_t2)
        have hbt2_t1 : (t2 == t1) = false :=
          beq_eq_false_iff_ne.mpr (Ne.symm ht1t2)
        have h3 : pick % 3 < 3 := Nat.mod_lt _ (by omega)
        rcases hq : pick % 3 with _ | _ | _ | q
        · left
          simp [hq, List.lookup, hbmy_m]
        · right
          simp [hq, List.lookup, hbt1_m, hbt1_my, hbt1_ex]
        · right
          simp [hq, List.lookup, hbt2_m, hbt2_my, hbt2_ex, hbt2_t1]
        · rw [hq] at h3
          omega
    · have hlen6 : (m :: my :: ex :: t1 :: t2 :: x :: rest6).length =
          rest6.length + 6 := by simp
      rw [hlen6] at hlen5
      omega
  · intro pids sh pk hne
    simp [assignRolesModel, hne]

/-- Witness for C2: players [1,2,3,4,5] with injected shuffle [3,1,4,5,2]
and target pick 7 yield Mafia 3, Mayor 1, Executioner 4 targeting the Town
player 5, with Town 5 and 2; a 3-player roster fails with RosterSizeError. -/
theorem assignRoles_spec_witness :
    (([(3, Role.MAFIA), (1, Role.MAYOR), (4, Role.EXECUTIONER),
      (5, Role.TOWN), (2, Role.TOWN)].map Prod.fst).Perm [1, 2, 3, 4, 5]) ∧
    ([(3, Role.MAFIA), (1, Role.MAYOR), (4, Role.EXECUTIONER),
      (5, Role.TOWN), (2, Role.TOWN)].filter
        (fun pr => pr.2 == Role.MAFIA)).length = 1 ∧
    ([(3, Role.MAFIA), (1, Role.MAYOR), (4, Role.EXECUTIONER),
      (5, Role.TOWN), (2, Role.TOWN)].lookup 5 = some Role.MAYOR ∨
      [(3, Role.MAFIA), (1, Role.MAYOR), (4, Role.EXECUTIONER),
        (5, Role.TOWN), (2, Role.TOWN)].lookup 5 = some Role.TOWN) ∧
    assignRolesModel [1, 2, 3] [3, 1, 2] 0 =
      Except.error RoleError.RosterSizeError := by
  have h := assignRoles_spec [1, 2, 3, 4, 5] [3, 1, 4, 5, 2] 7 (by decide)
    (by decide) (by decide)
  obtain ⟨asg, hok, hpm, _, hmaf, _, _, _, hlook⟩ := h.1
  have heval : assignRolesModel [1, 2, 3, 4, 5] [3, 1, 4, 5, 2] 7 =
      Except.ok ⟨[(3, Role.MAFIA), (1, Role.MAYOR), (4, Role.EXECUTIONER),
        (5, Role.TOWN), (2, Role.TOWN)], 5⟩ := rfl
  rw [heval] at hok
  injection hok with hok2
  rw [← hok2] at hpm hmaf hlook
  exact ⟨hpm, hmaf, hlook, h.2 [1, 2, 3] [3, 1, 2] 0 (by decide)⟩

end MafiaBot
